import Mathlib

/-!
Verification development for the receiptless client repository.

The repository consists of:
  * a URL/token codec: `buildReceiptUrl` (components/ReceiptlessQrModal.tsx and
    components/ReceiptlessQrView.tsx, identical definitions) and `extractTokenId`
    (app/r/[tokenId].tsx, scan screen);
  * an async view lifecycle shared by the QR modal (ReceiptlessQrModal.tsx) and
    the receipt-preview screen (app/r/[tokenId].tsx), embedded here as explicit
    step functions over event traces;
  * a one-shot key-provisioning script (sha256Hex / randomKey), embedded with an
    executable SHA-256 and base64url encoder.

JavaScript primitives used by the source (String.prototype.trim,
encodeURIComponent, the WHATWG URL constructor, Node crypto/base64url) are
embedded as executable Lean functions; simplifications of the WHATWG URL parser
are documented at `jsUrlParse`.
-/

/-- Predicate for the character set removed by JavaScript `String.prototype.trim`
(ECMA-262 WhiteSpace and LineTerminator code points, given by code point). -/
def isJsWhitespace (c : Char) : Bool :=
  let n := c.toNat
  n == 9 || n == 10 || n == 11 || n == 12 || n == 13 || n == 32 ||
  n == 160 || n == 0x1680 || (0x2000 ≤ n && n ≤ 0x200A) ||
  n == 0x2028 || n == 0x2029 || n == 0x202F || n == 0x205F || n == 0x3000 || n == 0xFEFF

/-- Drop elements satisfying `p` from both ends of a list. -/
def dropEnds (p : Char → Bool) (cs : List Char) : List Char :=
  ((cs.dropWhile p).reverse.dropWhile p).reverse

/-- Model of JavaScript `String.prototype.trim`. -/
def jsTrim (s : String) : String :=
  String.mk (dropEnds isJsWhitespace s.data)

/-- ASCII letter (A-Z / a-z), by code point. -/
def isAsciiAlpha (c : Char) : Bool :=
  (65 ≤ c.toNat && c.toNat ≤ 90) || (97 ≤ c.toNat && c.toNat ≤ 122)

/-- ASCII digit (0-9), by code point. -/
def isAsciiDigit (c : Char) : Bool :=
  48 ≤ c.toNat && c.toNat ≤ 57

/-- Hex digit as matched by `[0-9a-f]` under the regex `i` flag. -/
def isHexDigit (c : Char) : Bool :=
  isAsciiDigit c || (97 ≤ c.toNat && c.toNat ≤ 102) || (65 ≤ c.toNat && c.toNat ≤ 70)

/-- The character `-` (code point 45). -/
def isDash (c : Char) : Bool := c.toNat == 45

/-- UUID version digit, regex class `[1-5]` (code points 49-53). -/
def isUuidVersion (c : Char) : Bool := 49 ≤ c.toNat && c.toNat ≤ 53

/-- UUID variant digit, regex class `[89ab]` under the `i` flag
(code points 56, 57, 97, 98, 65, 66). -/
def isUuidVariant (c : Char) : Bool :=
  c.toNat == 56 || c.toNat == 57 || c.toNat == 97 || c.toNat == 98 ||
  c.toNat == 65 || c.toNat == 66

/-- Match a list of characters against a list of character classes, anchored at
both ends (each class must match exactly one character, in order). -/
def matchesPattern : List (Char → Bool) → List Char → Bool
  | [], [] => true
  | p :: ps, c :: cs => p c && matchesPattern ps cs
  | _, _ => false

/-- Character-class sequence of the source regex
`/^[0-9a-f]{8}-[0-9a-f]{4}-[1-5][0-9a-f]{3}-[89ab][0-9a-f]{3}-[0-9a-f]{12}$/i`
from extractTokenId (app/r/[tokenId].tsx). -/
def uuidPattern : List (Char → Bool) :=
  List.replicate 8 isHexDigit ++ [isDash] ++
  List.replicate 4 isHexDigit ++ [isDash] ++
  [isUuidVersion] ++ List.replicate 3 isHexDigit ++ [isDash] ++
  [isUuidVariant] ++ List.replicate 3 isHexDigit ++ [isDash] ++
  List.replicate 12 isHexDigit

/-- Model of `UUID_RE.test` from extractTokenId: the string matches the strict
UUID regex (anchored, case-insensitive). -/
def uuidMatch (s : String) : Bool :=
  matchesPattern uuidPattern s.data

/-- Characters that JavaScript `encodeURIComponent` leaves unescaped:
letters, digits, and `- _ . ! ~ * ' ( )` (code points 45 95 46 33 126 42 39 40 41). -/
def encodeKeep (c : Char) : Bool :=
  isAsciiAlpha c || isAsciiDigit c ||
  c.toNat == 45 || c.toNat == 95 || c.toNat == 46 || c.toNat == 33 ||
  c.toNat == 126 || c.toNat == 42 || c.toNat == 39 || c.toNat == 40 || c.toNat == 41

/-- UTF-8 encoding of a single code point, as a list of byte values. -/
def utf8Bytes (c : Char) : List Nat :=
  let n := c.toNat
  if n < 128 then [n]
  else if n < 2048 then [192 + n / 64, 128 + n % 64]
  else if n < 65536 then [224 + n / 4096, 128 + n / 64 % 64, 128 + n % 64]
  else [240 + n / 262144, 128 + n / 4096 % 64, 128 + n / 64 % 64, 128 + n % 64]

/-- Uppercase hex digit for a value below 16 (used by percent-escapes). -/
def upperHexChar (n : Nat) : Char :=
  "0123456789ABCDEF".data.getD n (Char.ofNat 48)

/-- Percent-escape of one byte, e.g. byte 32 becomes `%20`. -/
def pctBytes (b : Nat) : List Char :=
  [Char.ofNat 37, upperHexChar (b / 16 % 16), upperHexChar (b % 16)]

/-- Character-list worker for `encodeURIComponent`. -/
def encodeList : List Char → List Char
  | [] => []
  | c :: rest =>
    (if encodeKeep c then [c]
     else (utf8Bytes c).foldr (fun b acc => pctBytes b ++ acc) []) ++ encodeList rest

/-- Model of JavaScript `encodeURIComponent`. -/
def encodeURIComponent (s : String) : String :=
  String.mk (encodeList s.data)

/-- Case-insensitive list-of-characters prefix removal: if `cs` starts with
`pat` up to ASCII case, return the remainder. -/
def dropLeadingCI : List Char → List Char → Option (List Char)
  | [], cs => some cs
  | _ :: _, [] => none
  | p :: ps, c :: cs =>
    if (if 65 ≤ c.toNat && c.toNat ≤ 90 then c.toNat + 32 else c.toNat)
       == (if 65 ≤ p.toNat && p.toNat ≤ 90 then p.toNat + 32 else p.toNat)
    then dropLeadingCI ps cs
    else none

/-- Model of `domain.replace(/^https?:\/\//i, "")` from buildReceiptUrl: drop
one leading case-insensitive `http://` or `https://`. The anchored regex
matches at most once and the greedy `s?` prefers the longer form. -/
def stripSchemeMarker (s : String) : String :=
  match dropLeadingCI "https://".data s.data with
  | some r => String.mk r
  | none =>
    match dropLeadingCI "http://".data s.data with
    | some r => String.mk r
    | none => s

/-- Model of `.replace(/\/+$/, "")` from buildReceiptUrl: remove the maximal
run of trailing slashes. -/
def stripTrailingSlashes (s : String) : String :=
  String.mk ((s.data.reverse.dropWhile (fun c => c.toNat == 47)).reverse)

/-- Domain normalization performed by buildReceiptUrl: scheme marker stripped,
then trailing slashes stripped. -/
def normalizeReceiptDomain (domain : String) : String :=
  stripTrailingSlashes (stripSchemeMarker domain)

/-- Model of buildReceiptUrl (components/ReceiptlessQrModal.tsx lines 23-27 and
components/ReceiptlessQrView.tsx lines 16-20, identical):
`https://` + cleaned domain + `/r/` + encodeURIComponent(trimmed token). -/
def buildReceiptUrl (domain token : String) : String :=
  "https://" ++ normalizeReceiptDomain domain ++ "/r/" ++ encodeURIComponent (jsTrim token)

/-- Result of a successful WHATWG URL parse, restricted to the components the
source reads (`extractTokenId` only uses `pathname`). -/
structure JsUrl where
  scheme : String
  host : String
  port : Option Nat
  pathname : String
deriving DecidableEq, Repr

/-- Scheme character after the first: ASCII alphanumeric or `+` `-` `.`
(code points 43, 45, 46). -/
def isSchemeChar (c : Char) : Bool :=
  isAsciiAlpha c || isAsciiDigit c || c.toNat == 43 || c.toNat == 45 || c.toNat == 46

/-- Characters ending the authority of a special URL: `/` `\` `?` `#`
(code points 47, 92, 63, 35). -/
def isAuthorityEnd (c : Char) : Bool :=
  c.toNat == 47 || c.toNat == 92 || c.toNat == 63 || c.toNat == 35

/-- Characters starting the query or fragment: `?` `#` (code points 63, 35). -/
def isPathEnd (c : Char) : Bool :=
  c.toNat == 63 || c.toNat == 35

/-- Forbidden domain code points of the WHATWG URL Standard: C0 controls and
space (code points up to 32), `#` `%` `/` `:` `<` `>` `?` `@` `[` `\` `]` `^`
`|` and DEL (35, 37, 47, 58, 60, 62, 63, 64, 91, 92, 93, 94, 124, 127).
A special-scheme URL whose host contains one fails to parse. -/
def isForbiddenHostChar (c : Char) : Bool :=
  let n := c.toNat
  n ≤ 32 || n == 35 || n == 37 || n == 47 || n == 58 || n == 60 || n == 62 ||
  n == 63 || n == 64 || n == 91 || n == 92 || n == 93 || n == 94 || n == 124 || n == 127

/-- Conservative hostname alphabet: ASCII letters, digits, `-`, `.`, `_`, `~`
(code points 45, 46, 95, 126). A domain made of these characters parses as a
host unchanged. -/
def isSafeHostChar (c : Char) : Bool :=
  isAsciiAlpha c || isAsciiDigit c || c.toNat == 45 || c.toNat == 46 ||
  c.toNat == 95 || c.toNat == 126

/-- ASCII lowercasing of one character. -/
def asciiLowerChar (c : Char) : Char :=
  if 65 ≤ c.toNat && c.toNat ≤ 90 then Char.ofNat (c.toNat + 32) else c

/-- Input preprocessing of the WHATWG URL parser: remove every tab, LF and CR
(code points 9, 10, 13), then strip C0 controls and spaces from both ends. -/
def urlPreprocess (cs : List Char) : List Char :=
  dropEnds (fun c => c.toNat ≤ 32)
    (cs.filter (fun c => c.toNat != 9 && c.toNat != 10 && c.toNat != 13))

/-- Accumulating worker for `schemeSplit`. -/
def schemeSplitGo : List Char → List Char → Option (List Char × List Char)
  | _, [] => none
  | acc, c :: rest =>
    if c.toNat == 58 then some (acc.reverse, rest)
    else if isSchemeChar c then schemeSplitGo (c :: acc) rest
    else none

/-- Split `scheme:rest` at the first colon; fails when the input has no valid
scheme (first character not a letter, an invalid scheme character, or no `:`). -/
def schemeSplit : List Char → Option (List Char × List Char)
  | [] => none
  | c :: rest => if isAsciiAlpha c then schemeSplitGo [c] rest else none

/-- The special schemes handled with an authority; `file:` is not modelled. -/
def specialSchemes : List String := ["http", "https", "ws", "wss", "ftp"]

/-- Parse digits to a number; fails on any non-digit. -/
def digitsToNatGo : Nat → List Char → Option Nat
  | acc, [] => some acc
  | acc, c :: rest =>
    if isAsciiDigit c then digitsToNatGo (acc * 10 + (c.toNat - 48)) rest else none

/-- Host and port of a special-scheme authority: the part after the last `@`
(code point 64) is split at the first `:` (58) into host and port. The host
must be non-empty and free of forbidden code points; the port, when present and
non-empty, must be all digits and at most 65535. IPv6 bracket hosts and
percent-encoded hosts are not modelled (they fail, as `[` `]` `%` are treated
as forbidden). -/
def parseHostPort (auth : List Char) : Option (List Char × Option Nat) :=
  let hostport := (auth.reverse.takeWhile (fun c => c.toNat != 64)).reverse
  let host := hostport.takeWhile (fun c => c.toNat != 58)
  let portPart := hostport.dropWhile (fun c => c.toNat != 58)
  if host.any isForbiddenHostChar then none
  else if host.isEmpty then none
  else
    match portPart with
    | [] => some (host.map asciiLowerChar, none)
    | _ :: pcs =>
      if pcs.isEmpty then some (host.map asciiLowerChar, none)
      else
        match digitsToNatGo 0 pcs with
        | some n => if n ≤ 65535 then some (host.map asciiLowerChar, some n) else none
        | none => none

/-- Pathname of a special-scheme URL from the text following the authority:
empty or query/fragment-only input yields `/`; otherwise the path runs to the
first `?` or `#`, with `\` (92) rewritten to `/` (47). Dot-segment
normalization is not modelled. -/
def parsePathname (rest : List Char) : List Char :=
  match rest with
  | [] => [Char.ofNat 47]
  | c :: _ =>
    if isPathEnd c then [Char.ofNat 47]
    else (rest.takeWhile (fun c => !(isPathEnd c))).map
      (fun c => if c.toNat == 92 then Char.ofNat 47 else c)

/-- Model of the WHATWG URL parser behind JavaScript `new URL(s)` (no base),
restricted to what `extractTokenId` observes: success/failure and the parsed
pathname. Simplifications, each documented at the helper it concerns: no
`file:` scheme, no IPv6 or percent-encoded hosts, no IDNA mapping of non-ASCII
hosts (kept verbatim), no dot-segment normalization, and non-special schemes
keep their opaque path (authority form approximated). -/
def jsUrlParse (s : String) : Option JsUrl :=
  let cs := urlPreprocess s.data
  match schemeSplit cs with
  | none => none
  | some (schemeCs, rest) =>
    let scheme := String.mk (schemeCs.map asciiLowerChar)
    if specialSchemes.contains scheme then
      let rest2 := rest.dropWhile (fun c => c.toNat == 47 || c.toNat == 92)
      let auth := rest2.takeWhile (fun c => !(isAuthorityEnd c))
      let after := rest2.dropWhile (fun c => !(isAuthorityEnd c))
      match parseHostPort auth with
      | none => none
      | some hp =>
        some { scheme := scheme, host := String.mk hp.1, port := hp.2,
               pathname := String.mk (parsePathname after) }
    else
      some { scheme := scheme, host := "", port := none,
             pathname := String.mk (rest.takeWhile (fun c => !(isPathEnd c))) }

/-- Model of `pathname.split("/")` (JavaScript semantics: an empty input gives
one empty group, separators at the ends give empty groups). -/
def splitOnSlash : List Char → List (List Char)
  | [] => [[]]
  | c :: rest =>
    if c.toNat == 47 then [] :: splitOnSlash rest
    else
      match splitOnSlash rest with
      | [] => [[c]]
      | g :: gs => (c :: g) :: gs

/-- Model of `u.pathname.split("/").filter(Boolean)` from extractTokenId. -/
def pathSegments (pathname : String) : List String :=
  ((splitOnSlash pathname.data).filter (fun g => !g.isEmpty)).map String.mk

/-- Model of `parts[parts.length - 1] || ""` from extractTokenId. -/
def lastNonEmptySegment (pathname : String) : String :=
  (pathSegments pathname).getLastD ""

/-- Model of extractTokenId (app/r/[tokenId].tsx lines 205-225): trim, accept a
direct UUID, otherwise parse as a URL and accept a UUID in the last non-empty
path segment, otherwise return null (here `none`). -/
def extractTokenId (scanned : String) : Option String :=
  let s := jsTrim scanned
  if uuidMatch s then some s
  else
    match jsUrlParse s with
    | some u =>
      let seg := lastNonEmptySegment u.pathname
      if uuidMatch seg then some seg else none
    | none => none

example : jsUrlParse "not-a-uuid" = none := by decide
example : (jsUrlParse "https://receipt-less.com/r/abc").map JsUrl.pathname = some "/r/abc" := by decide
example : (jsUrlParse "https://u:p@h.com:8080/a/b?q=1#f").map JsUrl.pathname = some "/a/b" := by decide
example : jsUrlParse "https://a b/r/x" = none := by decide
example : jsUrlParse "https:" = none := by decide
example : (jsUrlParse "HTTPS:example.com/r/x").map JsUrl.host = some "example.com" := by decide
example : extractTokenId " 3fa85f64-5717-4562-b3fc-2c963f66afa6 " = some "3fa85f64-5717-4562-b3fc-2c963f66afa6" := by decide
example : extractTokenId "https://receipt-less.com/r/3fa85f64-5717-4562-b3fc-2c963f66afa6" = some "3fa85f64-5717-4562-b3fc-2c963f66afa6" := by decide
example : extractTokenId "https://receipt-less.com/r/3fa85f64-5717-4562-b3fc-2c963f66afa6/" = some "3fa85f64-5717-4562-b3fc-2c963f66afa6" := by decide
example : extractTokenId "not-a-uuid" = none := by decide
example : extractTokenId "https://receipt-less.com/r/nope" = none := by decide

/-- Tagged state of the QR modal (type QrState in ReceiptlessQrModal.tsx):
`ready` carries the generated data URL and the receipt URL, `error` carries the
message and the receipt URL (the fallback link rendered to the user). -/
inductive QrState where
  | idle : QrState
  | loading : QrState
  | ready : String → String → QrState
  | error : String → String → QrState
deriving DecidableEq, Repr

/-- The fixed auto-dismiss delay of `window.setTimeout(onClose, 12000)` in
ReceiptlessQrModal.tsx, in milliseconds. -/
def autoCloseDelayMs : Nat := 12000

/-- Explicit state of one ReceiptlessQrModal instance: the rendered `qr` state,
the number `gen` of effect activations so far, the generation `live` whose
`alive` flag is still true (none after cleanup), the receipt URL `actUrl`
computed for the current activation, the pending auto-close timer
(generation, absolute deadline), the number of times the timer invoked the
close callback, and the current time in milliseconds. -/
structure ModalState where
  qr : QrState
  gen : Nat
  live : Option Nat
  actUrl : String
  timer : Option (Nat × Nat)
  closeCalls : Nat
  now : Nat
deriving DecidableEq, Repr

/-- Events of the modal lifecycle: an effect run with `open = true` (mount,
open becoming true, or a dependency change while open) carrying the domain and
token props, an effect run with `open = false`, unmount, completion of the
asynchronous QR generation started by generation `k` (ok data URL or error
message), and the passage of time to `t` firing any due timer. -/
inductive ModalEvent where
  | activate : String → String → ModalEvent
  | deactivate : ModalEvent
  | unmount : ModalEvent
  | complete : Nat → Except String String → ModalEvent
  | tick : Nat → ModalEvent

/-- Initial state of a freshly mounted, closed modal (`useState({status:"idle"})`). -/
def modalInit : ModalState :=
  { qr := .idle, gen := 0, live := none, actUrl := "", timer := none, closeCalls := 0, now := 0 }

/-- The effect cleanup of ReceiptlessQrModal.tsx: `alive = false` and
`clearTimeout(t)`. React runs it before every effect re-run and on unmount. -/
def modalCleanup (s : ModalState) : ModalState :=
  { s with live := none, timer := none }

/-- One step of the modal lifecycle (the useEffect of ReceiptlessQrModal.tsx
lines 119-146, with React cleanup ordering made explicit): an activation cleans
up the previous effect, enters `loading`, recomputes the receipt URL, and arms
a fresh 12-second timer; a deactivation cleans up and shows `idle`; an async
completion checks the liveness flag of its own generation before any state
transition; a due timer fires at most once, invoking the close callback. -/
def modalStep : ModalEvent → ModalState → ModalState
  | .activate domain token, s =>
    let s0 := modalCleanup s
    let g := s0.gen + 1
    { s0 with gen := g, live := some g, qr := .loading,
              actUrl := buildReceiptUrl domain token,
              timer := some (g, s0.now + autoCloseDelayMs) }
  | .deactivate, s => { modalCleanup s with qr := .idle }
  | .unmount, s => modalCleanup s
  | .complete k res, s =>
    if s.live = some k then
      match res with
      | .ok dataUrl => { s with qr := .ready dataUrl s.actUrl }
      | .error msg => { s with qr := .error msg s.actUrl }
    else s
  | .tick t, s =>
    match s.timer with
    | some kdl =>
      if kdl.2 ≤ t then { s with now := t, timer := none, closeCalls := s.closeCalls + 1 }
      else { s with now := t }
    | none => { s with now := t }

/-- Run the modal from its initial state over a list of events. -/
def modalRun (es : List ModalEvent) : ModalState :=
  es.foldl (fun s e => modalStep e s) modalInit

/-- Liveness invariant of the modal: only the most recent activation can still
be alive. -/
def modalLiveInv (s : ModalState) : Prop :=
  ∀ g : Nat, s.live = some g → g = s.gen

/-- One HTTP request issued by the receipt screen; `fetch(url)` defaults to the
GET method. -/
structure HttpRequest where
  method : String
  url : String
deriving DecidableEq, Repr

/-- Request URL of the receipt screen
(`${CONFIG.supabaseFunctionsBaseUrl}/token-preview?token_id=${encodeURIComponent(token_id)}`). -/
def tokenPreviewUrl (base id : String) : String :=
  base ++ "/token-preview?token_id=" ++ encodeURIComponent id

/-- Explicit state of one ReceiptScreen activation epoch (app/r/[tokenId].tsx):
the trimmed route parameter, the three useState cells, the requests issued so
far, whether the fetch started by `run()` is still pending, and the `cancelled`
flag set by the effect cleanup. The response payload is kept as an
uninterpreted string (the screen only stores and renders it). -/
structure ScreenState where
  token_id : String
  loading : Bool
  err : Option String
  data : Option String
  requests : List HttpRequest
  inFlight : Bool
  cancelled : Bool
deriving DecidableEq, Repr

/-- Events of the receipt screen: the effect body running, the fetch resolving
with an ok payload, the fetch failing with the thrown error message (non-OK
status or transport error), and the effect cleanup setting `cancelled`. -/
inductive ScreenEvent where
  | effect : ScreenEvent
  | ok : String → ScreenEvent
  | fail : String → ScreenEvent
  | cancel : ScreenEvent

/-- Model of `String(tokenId || "").trim()` followed by the initial useState
values (`loading` starts true, `data` and `err` start null). -/
def screenInit (tokenIdParam : Option String) : ScreenState :=
  { token_id := jsTrim (tokenIdParam.getD ""), loading := true, err := none,
    data := none, requests := [], inFlight := false, cancelled := false }

/-- Model of the JavaScript `||` fallback on strings (`e?.message || "Error"`
and `json?.error || "Failed to load receipt"`): an empty string is falsy. -/
def jsOrElse (a b : String) : String :=
  if a = "" then b else a

/-- One step of the receipt screen lifecycle (the useEffect of
app/r/[tokenId].tsx lines 49-76): the effect runs `run()` only when `token_id`
is non-empty — `run()` resets `err`, keeps `loading` true, and issues exactly
one GET request; a completion checks `cancelled` before `setData`/`setErr` and
before `setLoading(false)` in `finally`; completions can only happen while a
request is in flight. -/
def screenStep (base : String) : ScreenEvent → ScreenState → ScreenState
  | .effect, s =>
    if s.token_id = "" then s
    else
      { s with loading := true, err := none, inFlight := true,
               requests := s.requests ++ [⟨"GET", tokenPreviewUrl base s.token_id⟩] }
  | .ok payload, s =>
    if s.inFlight then
      if s.cancelled then { s with inFlight := false }
      else { s with data := some payload, loading := false, inFlight := false }
    else s
  | .fail emsg, s =>
    if s.inFlight then
      if s.cancelled then { s with inFlight := false }
      else { s with err := some (jsOrElse emsg "Error"), loading := false, inFlight := false }
    else s
  | .cancel, s => { s with cancelled := true }

/-- Run the receipt screen from its initial state over a list of events. -/
def screenRun (base : String) (tokenIdParam : Option String) (es : List ScreenEvent) : ScreenState :=
  es.foldl (fun s e => screenStep base e s) (screenInit tokenIdParam)

/-- What the receipt screen renders: the loading indicator, the error view with
its message, or the receipt itself. -/
inductive ScreenView where
  | loadingView : ScreenView
  | errorView : String → ScreenView
  | receiptView : String → ScreenView
deriving DecidableEq, Repr

/-- Render function of ReceiptScreen (app/r/[tokenId].tsx lines 78-94): while
`loading`, the spinner; then `if (err || !data)` the error view showing
`err ?? "Unknown error"`; otherwise the receipt. -/
def renderScreen (s : ScreenState) : ScreenView :=
  if s.loading then .loadingView
  else
    match s.err, s.data with
    | some m, _ => .errorView m
    | none, none => .errorView "Unknown error"
    | none, some payload => .receiptView payload

example : (modalRun [.activate "d.com" "t"]).timer = some (1, 12000) := by decide
example : (modalRun [.activate "d.com" "t", .deactivate]).timer = none := by decide
example : (modalRun [.activate "d.com" "t", .tick 12000]).closeCalls = 1 := by decide
example : (modalRun [.activate "d.com" "t", .tick 11999]).closeCalls = 0 := by decide
example : (modalRun [.activate "d.com" "t", .activate "d.com" "t2", .complete 1 (.ok "img")]).qr = .loading := by decide
example : (screenRun "b" (some "  ") [.effect, .ok "x"]).loading = true := by decide
example : renderScreen (screenRun "b" (some "id1") [.effect, .fail "boom"]) = .errorView "boom" := by decide

/-- Reduction modulo 2^32, the word size of SHA-256. -/
def w32 (n : Nat) : Nat := n % 4294967296

/-- Combine two numbers bit by bit over `k` bits with a per-bit operation. -/
def bitCombine (f : Nat → Nat → Nat) : Nat → Nat → Nat → Nat
  | 0, _, _ => 0
  | k + 1, a, b => f (a % 2) (b % 2) + 2 * bitCombine f k (a / 2) (b / 2)

/-- Bitwise exclusive or on 32-bit words. -/
def xor32 (a b : Nat) : Nat := bitCombine (fun x y => (x + y) % 2) 32 a b

/-- Bitwise and on 32-bit words. -/
def and32 (a b : Nat) : Nat := bitCombine (fun x y => x * y) 32 a b

/-- Bitwise complement on 32-bit words. -/
def not32 (a : Nat) : Nat := 4294967295 - w32 a

/-- Right rotation of a 32-bit word by `n` bits. -/
def rotr32 (n x : Nat) : Nat := w32 (x / 2 ^ n + x % 2 ^ n * 2 ^ (32 - n))

/-- Logical right shift of a 32-bit word by `n` bits. -/
def shr32 (n x : Nat) : Nat := x / 2 ^ n

/-- SHA-256 choice function Ch(e,f,g). -/
def shaCh (e f g : Nat) : Nat := xor32 (and32 e f) (and32 (not32 e) g)

/-- SHA-256 majority function Maj(a,b,c). -/
def shaMaj (a b c : Nat) : Nat := xor32 (xor32 (and32 a b) (and32 a c)) (and32 b c)

/-- SHA-256 big sigma 0: rotr 2 xor rotr 13 xor rotr 22. -/
def bigSigma0 (x : Nat) : Nat := xor32 (xor32 (rotr32 2 x) (rotr32 13 x)) (rotr32 22 x)

/-- SHA-256 big sigma 1: rotr 6 xor rotr 11 xor rotr 25. -/
def bigSigma1 (x : Nat) : Nat := xor32 (xor32 (rotr32 6 x) (rotr32 11 x)) (rotr32 25 x)

/-- SHA-256 small sigma 0: rotr 7 xor rotr 18 xor shr 3. -/
def smallSigma0 (x : Nat) : Nat := xor32 (xor32 (rotr32 7 x) (rotr32 18 x)) (shr32 3 x)

/-- SHA-256 small sigma 1: rotr 17 xor rotr 19 xor shr 10. -/
def smallSigma1 (x : Nat) : Nat := xor32 (xor32 (rotr32 17 x) (rotr32 19 x)) (shr32 10 x)

/-- The 64 SHA-256 round constants of FIPS 180-4, written in decimal. -/
def shaK : List Nat :=
  [1116352408, 1899447441, 3049323471, 3921009573,
   961987163, 1508970993, 2453635748, 2870763221,
   3624381080, 310598401, 607225278, 1426881987,
   1925078388, 2162078206, 2614888103, 3248222580,
   3835390401, 4022224774, 264347078, 604807628,
   770255983, 1249150122, 1555081692, 1996064986,
   2554220882, 2821834349, 2952996808, 3210313671,
   3336571891, 3584528711, 113926993, 338241895,
   666307205, 773529912, 1294757372, 1396182291,
   1695183700, 1986661051, 2177026350, 2456956037,
   2730485921, 2820302411, 3259730800, 3345764771,
   3516065817, 3600352804, 4094571909, 275423344,
   430227734, 506948616, 659060556, 883997877,
   958139571, 1322822218, 1537002063, 1747873779,
   1955562222, 2024104815, 2227730452, 2361852424,
   2428436474, 2756734187, 3204031479, 3329325298]

/-- Working registers / chaining value of SHA-256. -/
structure ShaRegs where
  a : Nat
  b : Nat
  c : Nat
  d : Nat
  e : Nat
  f : Nat
  g : Nat
  h : Nat

/-- The SHA-256 initial hash value of FIPS 180-4, written in decimal. -/
def shaInit : ShaRegs :=
  { a := 1779033703, b := 3144134277, c := 1013904242, d := 2773480762,
    e := 1359893119, f := 2600822924, g := 528734635, h := 1541459225 }

/-- One SHA-256 round with round constant `k` and schedule word `w`. -/
def shaRound (st : ShaRegs) (k w : Nat) : ShaRegs :=
  let t1 := w32 (st.h + bigSigma1 st.e + shaCh st.e st.f st.g + k + w)
  let t2 := w32 (bigSigma0 st.a + shaMaj st.a st.b st.c)
  { a := w32 (t1 + t2), b := st.a, c := st.b, d := st.c,
    e := w32 (st.d + t1), f := st.e, g := st.f, h := st.g }

/-- Message-schedule extension: the accumulator holds the schedule produced so
far in reverse, so w[i-2], w[i-7], w[i-15], w[i-16] sit at offsets 1, 6, 14, 15. -/
def extendScheduleGo : Nat → List Nat → List Nat
  | 0, acc => acc
  | k + 1, acc =>
    let w := w32 (acc.getD 15 0 + smallSigma0 (acc.getD 14 0) + acc.getD 6 0 + smallSigma1 (acc.getD 1 0))
    extendScheduleGo k (w :: acc)

/-- The 64-word message schedule of one 16-word block. -/
def messageSchedule (block16 : List Nat) : List Nat :=
  (extendScheduleGo 48 block16.reverse).reverse

/-- Compress one 16-word block into the chaining value. -/
def compressBlock (hs : ShaRegs) (block16 : List Nat) : ShaRegs :=
  let ws := messageSchedule block16
  let st := (shaK.zip ws).foldl (fun st kw => shaRound st kw.1 kw.2) hs
  { a := w32 (hs.a + st.a), b := w32 (hs.b + st.b), c := w32 (hs.c + st.c), d := w32 (hs.d + st.d),
    e := w32 (hs.e + st.e), f := w32 (hs.f + st.f), g := w32 (hs.g + st.g), h := w32 (hs.h + st.h) }

/-- Big-endian 8-byte encoding of a length in bits. -/
def lenBytes8 (n : Nat) : List Nat :=
  [n / 2 ^ 56 % 256, n / 2 ^ 48 % 256, n / 2 ^ 40 % 256, n / 2 ^ 32 % 256,
   n / 2 ^ 24 % 256, n / 2 ^ 16 % 256, n / 2 ^ 8 % 256, n % 256]

/-- SHA-256 padding: append byte 0x80, zero bytes to 56 mod 64, and the
big-endian 64-bit bit length. -/
def sha256Pad (msg : List Nat) : List Nat :=
  msg ++ [128] ++ List.replicate ((55 + 64 - msg.length % 64) % 64) 0 ++ lenBytes8 (8 * msg.length)

/-- Group bytes into big-endian 32-bit words (fuel-driven; the fuel is the list
length, so every byte is consumed). -/
def bytesToWordsGo : Nat → List Nat → List Nat
  | 0, _ => []
  | _, [] => []
  | fuel + 1, b0 :: rest =>
    match rest with
    | b1 :: b2 :: b3 :: rest2 => (((b0 * 256 + b1) * 256 + b2) * 256 + b3) :: bytesToWordsGo fuel rest2
    | _ => [b0]

/-- Split a byte list into 64-byte blocks (fuel-driven). -/
def toBlocksGo : Nat → List Nat → List (List Nat)
  | 0, _ => []
  | _, [] => []
  | fuel + 1, l => l.take 64 :: toBlocksGo fuel (l.drop 64)

/-- SHA-256 chaining value of a byte message. -/
def sha256Regs (msg : List Nat) : ShaRegs :=
  let padded := sha256Pad msg
  (toBlocksGo padded.length padded).foldl
    (fun hs b => compressBlock hs (bytesToWordsGo b.length b)) shaInit

/-- Big-endian bytes of one 32-bit word. -/
def wordBytes (w : Nat) : List Nat :=
  [w / 2 ^ 24 % 256, w / 2 ^ 16 % 256, w / 2 ^ 8 % 256, w % 256]

/-- SHA-256 digest of a byte message, as 32 bytes. -/
def sha256Bytes (msg : List Nat) : List Nat :=
  let r := sha256Regs msg
  wordBytes r.a ++ wordBytes r.b ++ wordBytes r.c ++ wordBytes r.d ++
  wordBytes r.e ++ wordBytes r.f ++ wordBytes r.g ++ wordBytes r.h

/-- Lowercase hex digit for a value below 16. -/
def lowerHexChar (n : Nat) : Char :=
  "0123456789abcdef".data.getD n (Char.ofNat 48)

/-- Lowercase hex rendering of a byte list (two digits per byte), the format of
Node `digest("hex")`. -/
def bytesToLowerHex (bs : List Nat) : List Char :=
  bs.foldr (fun b acc => lowerHexChar (b / 16 % 16) :: lowerHexChar (b % 16) :: acc) []

/-- UTF-8 bytes of a string, the encoding of Node `update(s, "utf8")`. -/
def stringUtf8Bytes (s : String) : List Nat :=
  s.data.foldr (fun c acc => utf8Bytes c ++ acc) []

/-- Model of sha256Hex from the provisioning script (src/unnamed/part_000):
`crypto.createHash("sha256").update(s, "utf8").digest("hex")`. -/
def sha256Hex (s : String) : String :=
  String.mk (bytesToLowerHex (sha256Bytes (stringUtf8Bytes s)))

/-- Base64url alphabet character (A-Z a-z 0-9 - _). -/
def b64Char (n : Nat) : Char :=
  "ABCDEFGHIJKLMNOPQRSTUVWXYZabcdefghijklmnopqrstuvwxyz0123456789-_".data.getD n (Char.ofNat 65)

/-- Base64url encoding without padding, the format of Node
`Buffer.toString("base64url")`. -/
def base64urlEncode : List Nat → List Char
  | [] => []
  | [b0] => [b64Char (b0 / 4), b64Char (b0 % 4 * 16)]
  | [b0, b1] => [b64Char (b0 / 4), b64Char (b0 % 4 * 16 + b1 / 16), b64Char (b1 % 16 * 4)]
  | b0 :: b1 :: b2 :: rest =>
    b64Char (b0 / 4) :: b64Char (b0 % 4 * 16 + b1 / 16) ::
    b64Char (b1 % 16 * 4 + b2 / 64) :: b64Char (b2 % 64) :: base64urlEncode rest

/-- Model of randomKey from the provisioning script applied to the byte values
drawn by `crypto.randomBytes`: `randomBytes(bytes).toString("base64url")`. -/
def randomKey (bytes : List (Fin 256)) : String :=
  String.mk (base64urlEncode (bytes.map Fin.val))

/-- The two values printed by the provisioning script. -/
structure ProvisionOutput where
  rawKey : String
  apiKeyHash : String
deriving DecidableEq, Repr

/-- Model of the provisioning script (src/unnamed/part_000): `PEPPER` is the
environment variable (`none` when unset), `bytes` the 32 byte values drawn by
`crypto.randomBytes(32)`. The script exits with an error when `!PEPPER`
(unset or empty, since the empty string is falsy); otherwise it prints the
base64url raw key and `sha256Hex(PEPPER + ":" + rawKey)`. -/
def provisionScript (pepper : Option String) (bytes : List (Fin 256)) : Except String ProvisionOutput :=
  if pepper.getD "" = "" then
    .error "Set TERMINAL_KEY_PEPPER in your environment first."
  else
    let rawKey := randomKey bytes
    .ok { rawKey := rawKey, apiKeyHash := sha256Hex (pepper.getD "" ++ ":" ++ rawKey) }

/-- Lowercase hex digit predicate (0-9 a-f). -/
def isLowerHexChar (c : Char) : Bool :=
  isAsciiDigit c || (97 ≤ c.toNat && c.toNat ≤ 102)

/-- A string of lowercase hex digits only. -/
def isLowerHexString (s : String) : Bool :=
  s.data.all isLowerHexChar

example : jsTrim "  abc 123  " = "abc 123" := by decide
example : encodeURIComponent "abc 123" = "abc%20123" := by decide
example : buildReceiptUrl "https://r.example.com/" "  abc 123  " = "https://r.example.com/r/abc%20123" := by decide
example : uuidMatch "3fa85f64-5717-4562-b3fc-2c963f66afa6" = true := by decide
example : uuidMatch "not-a-uuid" = false := by decide
example : uuidMatch "3FA85F64-5717-4562-B3FC-2C963F66AFA6" = true := by decide
example : uuidMatch "3fa85f64-5717-7562-b3fc-2c963f66afa6" = false := by decide

set_option maxRecDepth 4000 in
/-- FIPS 180-4 test vector, validating the SHA-256 embedding. -/
theorem sha256Hex_abc_test_vector :
    sha256Hex "abc" = "ba7816bf8f01cfea414140de5dae2223b00361a396177a9cb410ff61f20015ad" := by
  decide

theorem takeWhile_of_all {α : Type} {p : α → Bool} :
    ∀ xs : List α, (∀ x ∈ xs, p x = true) → xs.takeWhile p = xs
  | [], _ => rfl
  | x :: xs, h => by
    simp only [List.takeWhile_cons, h x (List.mem_cons_self x xs)]
    exact congrArg (x :: ·) (takeWhile_of_all xs fun y hy => h y (List.mem_cons_of_mem x hy))

theorem dropWhile_nil_of_all {α : Type} {p : α → Bool} :
    ∀ xs : List α, (∀ x ∈ xs, p x = true) → xs.dropWhile p = []
  | [], _ => rfl
  | x :: xs, h => by
    simp only [List.dropWhile_cons, h x (List.mem_cons_self x xs), if_true]
    exact dropWhile_nil_of_all xs fun y hy => h y (List.mem_cons_of_mem x hy)

theorem dropWhile_of_all_false {α : Type} {p : α → Bool} :
    ∀ xs : List α, (∀ x ∈ xs, p x = false) → xs.dropWhile p = xs
  | [], _ => rfl
  | x :: xs, h => by
    simp only [List.dropWhile_cons, h x (List.mem_cons_self x xs)]
    simp

theorem takeWhile_append_of_all {α : Type} {p : α → Bool} {y : α} {ys : List α} :
    ∀ xs : List α, (∀ x ∈ xs, p x = true) → p y = false →
      ((xs ++ y :: ys).takeWhile p = xs)
  | [], _, hy => by simp [List.takeWhile_cons, hy]
  | x :: xs, h, hy => by
    simp only [List.cons_append, List.takeWhile_cons, h x (List.mem_cons_self x xs)]
    simpa using takeWhile_append_of_all xs (fun z hz => h z (List.mem_cons_of_mem x hz)) hy

theorem dropWhile_append_of_all {α : Type} {p : α → Bool} {y : α} {ys : List α} :
    ∀ xs : List α, (∀ x ∈ xs, p x = true) → p y = false →
      ((xs ++ y :: ys).dropWhile p = y :: ys)
  | [], _, hy => by simp [List.dropWhile_cons, hy]
  | x :: xs, h, hy => by
    simp only [List.cons_append, List.dropWhile_cons, h x (List.mem_cons_self x xs), if_true]
    exact dropWhile_append_of_all xs (fun z hz => h z (List.mem_cons_of_mem x hz)) hy

theorem filter_of_all {α : Type} {p : α → Bool} :
    ∀ xs : List α, (∀ x ∈ xs, p x = true) → xs.filter p = xs
  | [], _ => rfl
  | x :: xs, h => by
    simp only [List.filter_cons, h x (List.mem_cons_self x xs), if_true]
    exact congrArg (x :: ·) (filter_of_all xs fun y hy => h y (List.mem_cons_of_mem x hy))

theorem dropEnds_of_all_false {p : Char → Bool} {cs : List Char}
    (h : ∀ c ∈ cs, p c = false) : dropEnds p cs = cs := by
  unfold dropEnds
  rw [dropWhile_of_all_false cs h]
  rw [dropWhile_of_all_false cs.reverse (fun c hc => h c (List.mem_reverse.mp hc))]
  exact List.reverse_reverse cs

theorem string_mk_data (s : String) : String.mk s.data = s := rfl

/-- Trimming is the identity on a string with no JavaScript whitespace. -/
theorem jsTrim_of_no_ws {s : String} (h : ∀ c ∈ s.data, isJsWhitespace c = false) :
    jsTrim s = s := by
  unfold jsTrim
  rw [dropEnds_of_all_false h, string_mk_data]

theorem matchesPattern_length : ∀ (ps : List (Char → Bool)) (cs : List Char),
    matchesPattern ps cs = true → cs.length = ps.length
  | [], [], _ => rfl
  | [], _ :: _, h => by simp [matchesPattern] at h
  | _ :: _, [], h => by simp [matchesPattern] at h
  | p :: ps, c :: cs, h => by
    simp only [matchesPattern, Bool.and_eq_true] at h
    simp [matchesPattern_length ps cs h.2]

theorem matchesPattern_mem : ∀ (ps : List (Char → Bool)) (cs : List Char),
    matchesPattern ps cs = true → ∀ c ∈ cs, ∃ p ∈ ps, p c = true
  | [], [], _, c, hc => absurd hc (List.not_mem_nil c)
  | [], _ :: _, h, _, _ => by simp [matchesPattern] at h
  | _ :: _, [], h, _, _ => by simp [matchesPattern] at h
  | p :: ps, c :: cs, h, d, hd => by
    simp only [matchesPattern, Bool.and_eq_true] at h
    rcases List.mem_cons.mp hd with hd | hd
    · exact ⟨p, List.mem_cons_self p ps, hd ▸ h.1⟩
    · obtain ⟨q, hq, hqd⟩ := matchesPattern_mem ps cs h.2 d hd
      exact ⟨q, List.mem_cons_of_mem p hq, hqd⟩

/-- Every class of the UUID pattern only accepts hex digits or a dash. -/
theorem uuidPattern_classes :
    ∀ p ∈ uuidPattern, ∀ c : Char, p c = true →
      c.toNat = 45 ∨ (48 ≤ c.toNat ∧ c.toNat ≤ 57) ∨
      (97 ≤ c.toNat ∧ c.toNat ≤ 102) ∨ (65 ≤ c.toNat ∧ c.toNat ≤ 70) := by
  intro p hp c hc
  simp only [uuidPattern, List.mem_append, List.mem_replicate, List.mem_singleton] at hp
  rcases hp with
    (((((((((⟨_, h⟩ | h) | ⟨_, h⟩) | h) | h) | ⟨_, h⟩) | h) | h) | ⟨_, h⟩) | h) | ⟨_, h⟩ <;>
    rw [h] at hc <;>
    simp only [isHexDigit, isDash, isUuidVersion, isUuidVariant, isAsciiDigit,
      Bool.or_eq_true, Bool.and_eq_true, decide_eq_true_eq, beq_iff_eq] at hc <;>
    omega

/-- Character codes occurring in a string accepted by the UUID regex. -/
theorem uuid_char_code {t : String} (h : uuidMatch t = true) :
    ∀ c ∈ t.data,
      c.toNat = 45 ∨ (48 ≤ c.toNat ∧ c.toNat ≤ 57) ∨
      (97 ≤ c.toNat ∧ c.toNat ≤ 102) ∨ (65 ≤ c.toNat ∧ c.toNat ≤ 70) := by
  intro c hc
  obtain ⟨p, hp, hpc⟩ := matchesPattern_mem uuidPattern t.data h c hc
  exact uuidPattern_classes p hp c hpc

theorem uuid_length36 {t : String} (h : uuidMatch t = true) : t.data.length = 36 :=
  matchesPattern_length uuidPattern t.data h

theorem encodeList_of_keep :
    ∀ cs : List Char, (∀ c ∈ cs, encodeKeep c = true) → encodeList cs = cs
  | [], _ => rfl
  | c :: cs, h => by
    simp only [encodeList, h c (List.mem_cons_self c cs), if_true]
    exact congrArg (c :: ·) (encodeList_of_keep cs fun d hd => h d (List.mem_cons_of_mem c hd))

/-- Percent-encoding is the identity on a UUID (hex digits and dashes are all
unescaped by encodeURIComponent). -/
theorem encodeURIComponent_of_uuid {t : String} (h : uuidMatch t = true) :
    encodeURIComponent t = t := by
  unfold encodeURIComponent
  rw [encodeList_of_keep t.data, string_mk_data]
  intro c hc
  have := uuid_char_code h c hc
  simp only [encodeKeep, isAsciiAlpha, isAsciiDigit, Bool.or_eq_true, Bool.and_eq_true,
    decide_eq_true_eq, beq_iff_eq]
  omega

theorem reverse_getLastD {α : Type} : ∀ (xs : List α) (a : α), xs.reverse.getLastD a = xs.headD a
  | [], _ => rfl
  | x :: xs, a => by simp [List.reverse_cons, List.getLastD_concat, List.headD]

theorem head_dropWhile_false {α : Type} {p : α → Bool} :
    ∀ (xs : List α) (c : α), (xs.dropWhile p).head? = some c → p c = false
  | [], c, h => by simp [List.dropWhile] at h
  | x :: xs, c, h => by
    by_cases hx : p x = true
    · rw [List.dropWhile_cons, if_pos hx] at h
      exact head_dropWhile_false xs c h
    · rw [List.dropWhile_cons, if_neg hx] at h
      cases h
      exact Bool.not_eq_true _ ▸ hx

/-- C2: for every domain and token (including empty ones), buildReceiptUrl
returns `https://` ++ D ++ `/r/` ++ E, where D is the domain with a leading
case-insensitive `http(s)://` removed and all trailing slashes removed (so D
never ends in a slash), and E is the percent-encoding of the trimmed token; it
is total, produces the spec example on the spec inputs, and yields a
degenerate but well-formed URL on empty inputs. -/
theorem buildReceiptUrl_spec :
    (∀ domain token : String,
      buildReceiptUrl domain token =
        "https://" ++ normalizeReceiptDomain domain ++ "/r/" ++
          encodeURIComponent (jsTrim token)) ∧
    (∀ domain : String,
      (normalizeReceiptDomain domain).data.getLastD (Char.ofNat 97) ≠ Char.ofNat 47) ∧
    buildReceiptUrl "https://r.example.com/" "  abc 123  " = "https://r.example.com/r/abc%20123" ∧
    buildReceiptUrl "" "" = "https:///r/" := by
  refine ⟨fun _ _ => rfl, ?_, by decide, by decide⟩
  intro domain
  unfold normalizeReceiptDomain stripTrailingSlashes
  rw [show ∀ l : List Char, (String.mk l).data = l from fun _ => rfl]
  rw [reverse_getLastD]
  intro hcontra
  rcases hhead : ((stripSchemeMarker domain).data.reverse.dropWhile
      (fun c => c.toNat == 47)).head? with _ | ⟨c⟩
  · rw [List.headD_eq_head?, hhead] at hcontra
    simp at hcontra
  · rw [List.headD_eq_head?, hhead] at hcontra
    have hc := head_dropWhile_false _ _ hhead
    simp only [Option.getD_some] at hcontra
    rw [hcontra] at hc
    simp at hc

/-- C1: extractTokenId trims its input; a trimmed string matching the UUID
pattern is returned as is; otherwise, when the trimmed string parses as a URL,
the last non-empty path segment is returned exactly when it matches the UUID
pattern; in every other case (no UUID, and not a parsable URL or no matching
segment) the result is `none`; and the three spec examples evaluate as
specified. -/
theorem extractTokenId_spec :
    (∀ s : String, uuidMatch (jsTrim s) = true → extractTokenId s = some (jsTrim s)) ∧
    (∀ (s : String) (u : JsUrl), uuidMatch (jsTrim s) = false →
      jsUrlParse (jsTrim s) = some u → uuidMatch (lastNonEmptySegment u.pathname) = true →
      extractTokenId s = some (lastNonEmptySegment u.pathname)) ∧
    (∀ (s : String) (u : JsUrl), uuidMatch (jsTrim s) = false →
      jsUrlParse (jsTrim s) = some u → uuidMatch (lastNonEmptySegment u.pathname) = false →
      extractTokenId s = none) ∧
    (∀ s : String, uuidMatch (jsTrim s) = false → jsUrlParse (jsTrim s) = none →
      extractTokenId s = none) ∧
    extractTokenId "3fa85f64-5717-4562-b3fc-2c963f66afa6" =
      some "3fa85f64-5717-4562-b3fc-2c963f66afa6" ∧
    extractTokenId "https://receipt-less.com/r/3fa85f64-5717-4562-b3fc-2c963f66afa6" =
      some "3fa85f64-5717-4562-b3fc-2c963f66afa6" ∧
    extractTokenId "not-a-uuid" = none := by
  refine ⟨?_, ?_, ?_, ?_, by decide, by decide, by decide⟩
  · intro s h
    simp [extractTokenId, h]
  · intro s u h hu hseg
    simp [extractTokenId, h, hu, hseg]
  · intro s u h hu hseg
    simp [extractTokenId, h, hu, hseg]
  · intro s h hu
    simp [extractTokenId, h, hu]

/-- Witness for `extractTokenId_spec`: its hypotheses are satisfiable on the
spec UUID example. -/
theorem extractTokenId_spec_witness :
    extractTokenId " 123e4567-e89b-12d3-a456-426614174000 " =
      some (jsTrim " 123e4567-e89b-12d3-a456-426614174000 ") :=
  extractTokenId_spec.1 " 123e4567-e89b-12d3-a456-426614174000 " (by decide)

/-- C5: every non-null result of extractTokenId matches the strict UUID
pattern (both return paths are guarded by the regex test). -/
theorem extractTokenId_result_is_uuid :
    ∀ (s t : String), extractTokenId s = some t → uuidMatch t = true := by
  intro s t h
  simp only [extractTokenId] at h
  split at h
  · cases h
    assumption
  · split at h
    · split at h
      · cases h
        assumption
      · exact absurd h (by simp)
    · exact absurd h (by simp)

/-- Witness for `extractTokenId_result_is_uuid` at a concrete scan. -/
theorem extractTokenId_result_is_uuid_witness :
    uuidMatch "3fa85f64-5717-4562-b3fc-2c963f66afa6" = true :=
  extractTokenId_result_is_uuid
    "https://receipt-less.com/r/3fa85f64-5717-4562-b3fc-2c963f66afa6"
    "3fa85f64-5717-4562-b3fc-2c963f66afa6" (by decide)

theorem modalLiveInv_step (e : ModalEvent) (s : ModalState) (h : modalLiveInv s) :
    modalLiveInv (modalStep e s) := by
  intro g hg
  cases e with
  | activate domain token =>
    simp only [modalStep, modalCleanup] at hg ⊢
    exact (Option.some.inj hg).symm
  | deactivate => simp [modalStep, modalCleanup] at hg
  | unmount => simp [modalStep, modalCleanup] at hg
  | complete k res =>
    simp only [modalStep] at hg ⊢
    by_cases hl : s.live = some k
    · rw [if_pos hl] at hg ⊢
      cases res <;> exact h g hg
    · rw [if_neg hl] at hg ⊢
      exact h g hg
  | tick t =>
    simp only [modalStep] at hg ⊢
    rcases htm : s.timer with _ | ⟨kdl⟩
    · rw [htm] at hg
      simp at hg ⊢
      exact h g hg
    · rw [htm] at hg
      by_cases hdl : kdl.2 ≤ t <;> simp [hdl] at hg ⊢ <;> exact h g hg

theorem modalLiveInv_foldl : ∀ (es : List ModalEvent) (s : ModalState),
    modalLiveInv s → modalLiveInv (es.foldl (fun s e => modalStep e s) s)
  | [], _, h => h
  | e :: es, s, h => modalLiveInv_foldl es (modalStep e s) (modalLiveInv_step e s h)

/-- C3: completions are guarded by the liveness flag: a completion event for a
generation whose alive flag has been cleared (input change or teardown cleaned
it up) leaves the state entirely unchanged — no `ready`/`error` transition —
and in every reachable state the only generation that can still be alive is the
most recent activation, so only the final activation's result is ever rendered. -/
theorem stale_results_never_rendered :
    (∀ (s : ModalState) (k : Nat) (r : Except String String),
      s.live ≠ some k → modalStep (.complete k r) s = s) ∧
    (∀ (es : List ModalEvent) (g : Nat), (modalRun es).live = some g → g = (modalRun es).gen) ∧
    (∀ (base : String) (s : ScreenState) (payload : String), s.cancelled = true →
      (screenStep base (.ok payload) s).data = s.data ∧
      (screenStep base (.ok payload) s).loading = s.loading ∧
      (screenStep base (.ok payload) s).err = s.err) ∧
    (∀ (base : String) (s : ScreenState) (emsg : String), s.cancelled = true →
      (screenStep base (.fail emsg) s).err = s.err ∧
      (screenStep base (.fail emsg) s).loading = s.loading ∧
      (screenStep base (.fail emsg) s).data = s.data) := by
  refine ⟨?_, ?_, ?_, ?_⟩
  · intro s k r h
    simp [modalStep, h]
  · intro es g
    exact modalLiveInv_foldl es modalInit (fun g hg => by simp [modalInit] at hg) g
  · intro base s payload h
    simp only [screenStep, h]
    by_cases hf : s.inFlight = true <;> simp [hf]
  · intro base s emsg h
    simp only [screenStep, h]
    by_cases hf : s.inFlight = true <;> simp [hf]

/-- Witness for `stale_results_never_rendered`: a completion for generation 1
arriving after the second activation superseded it changes nothing. -/
theorem stale_results_never_rendered_witness :
    modalStep (.complete 1 (.ok "data:image/png;base64,AAA"))
        (modalRun [.activate "r.example.com" "tok", .activate "r.example.com" "tok2"]) =
      modalRun [.activate "r.example.com" "tok", .activate "r.example.com" "tok2"] :=
  stale_results_never_rendered.1 _ 1 (.ok "data:image/png;base64,AAA") (by decide)

/-- C4: every activation arms the 12000 ms auto-close timer for the new
generation; teardown, deactivation and re-activation clear (or replace) it; a
pending timer fires exactly once when time reaches its deadline, invoking the
close callback and clearing itself; it does not fire early; with no pending
timer the close callback is never invoked. -/
theorem autoclose_timer_spec :
    autoCloseDelayMs = 12000 ∧
    (∀ (s : ModalState) (domain token : String),
      (modalStep (.activate domain token) s).timer = some (s.gen + 1, s.now + 12000)) ∧
    (∀ s : ModalState, (modalStep .deactivate s).timer = none) ∧
    (∀ s : ModalState, (modalStep .unmount s).timer = none) ∧
    (∀ (s : ModalState) (k dl t : Nat), s.timer = some (k, dl) → dl ≤ t →
      (modalStep (.tick t) s).closeCalls = s.closeCalls + 1 ∧
      (modalStep (.tick t) s).timer = none) ∧
    (∀ (s : ModalState) (k dl t : Nat), s.timer = some (k, dl) → t < dl →
      (modalStep (.tick t) s).closeCalls = s.closeCalls ∧
      (modalStep (.tick t) s).timer = some (k, dl)) ∧
    (∀ (s : ModalState) (t : Nat), s.timer = none →
      (modalStep (.tick t) s).closeCalls = s.closeCalls) := by
  refine ⟨rfl, ?_, ?_, ?_, ?_, ?_, ?_⟩
  · intro s domain token
    simp [modalStep, modalCleanup, autoCloseDelayMs]
  · intro s
    simp [modalStep, modalCleanup]
  · intro s
    simp [modalStep, modalCleanup]
  · intro s k dl t htm hdl
    simp [modalStep, htm, hdl]
  · intro s k dl t htm hdl
    simp [modalStep, htm, Nat.not_le.mpr hdl]
  · intro s t htm
    simp [modalStep, htm]

/-- Witness for `autoclose_timer_spec`: the timer armed by an activation fires
at its 12000 ms deadline and is cleared. -/
theorem autoclose_timer_spec_witness :
    (modalStep (.tick 12000) (modalRun [.activate "r.example.com" "tok"])).closeCalls =
      (modalRun [.activate "r.example.com" "tok"]).closeCalls + 1 ∧
    (modalStep (.tick 12000) (modalRun [.activate "r.example.com" "tok"])).timer = none :=
  autoclose_timer_spec.2.2.2.2.1 _ 1 12000 12000 (by decide) (by decide)

/-- C7: with a non-empty token identifier, one effect activation issues exactly
one request — a GET to `{base}/token-preview?token_id=` followed by the
percent-encoded identifier — and no other event ever issues one (single
attempt, no retry). -/
theorem single_get_request_per_activation :
    ∀ (base : String) (s : ScreenState), s.token_id ≠ "" →
      (screenStep base .effect s).requests =
        s.requests ++ [⟨"GET", base ++ "/token-preview?token_id=" ++ encodeURIComponent s.token_id⟩] ∧
      (∀ payload : String, (screenStep base (.ok payload) s).requests = s.requests) ∧
      (∀ emsg : String, (screenStep base (.fail emsg) s).requests = s.requests) ∧
      (screenStep base .cancel s).requests = s.requests := by
  intro base s h
  refine ⟨?_, ?_, ?_, ?_⟩
  · simp [screenStep, h, tokenPreviewUrl]
  · intro payload
    by_cases hf : s.inFlight = true <;> by_cases hc : s.cancelled = true <;>
      simp [screenStep, hf, hc]
  · intro emsg
    by_cases hf : s.inFlight = true <;> by_cases hc : s.cancelled = true <;>
      simp [screenStep, hf, hc]
  · simp [screenStep]

/-- Witness for `single_get_request_per_activation` on a concrete screen state. -/
theorem single_get_request_witness :
    (screenStep "https://fn.example.com" .effect (screenInit (some "abc"))).requests =
      (screenInit (some "abc")).requests ++
        [⟨"GET", "https://fn.example.com" ++ "/token-preview?token_id=" ++ encodeURIComponent "abc"⟩] :=
  (single_get_request_per_activation "https://fn.example.com" (screenInit (some "abc"))
    (by decide)).1

/-- C8: a failure of the asynchronous operation is converted into the `error`
state rather than propagated: in the modal the error state carries the thrown
message and the receipt link as fallback; in the receipt screen a failure sets
the error message (with its JavaScript `||` fallbacks) and leaves loading, so
the error view is rendered in place of the receipt. -/
theorem failure_becomes_error_state :
    (∀ (s : ModalState) (k : Nat) (msg : String), s.live = some k →
      (modalStep (.complete k (.error msg)) s).qr = QrState.error msg s.actUrl) ∧
    (∀ (base : String) (s : ScreenState) (emsg : String),
      s.inFlight = true → s.cancelled = false →
      (screenStep base (.fail emsg) s).err = some (jsOrElse emsg "Error") ∧
      (screenStep base (.fail emsg) s).loading = false ∧
      renderScreen (screenStep base (.fail emsg) s) =
        ScreenView.errorView (jsOrElse emsg "Error")) := by
  constructor
  · intro s k msg h
    simp [modalStep, h]
  · intro base s emsg hf hc
    refine ⟨?_, ?_, ?_⟩ <;> simp [screenStep, hf, hc, renderScreen]

/-- Witness for `failure_becomes_error_state`: a failed logo fetch in the live
generation yields the error state carrying the receipt link. -/
theorem failure_becomes_error_state_witness :
    (modalStep (.complete 1 (.error "Logo fetch failed (404)"))
        (modalRun [.activate "r.example.com" "tok"])).qr =
      QrState.error "Logo fetch failed (404)" (modalRun [.activate "r.example.com" "tok"]).actUrl :=
  failure_becomes_error_state.1 _ 1 "Logo fetch failed (404)" (by decide)

/-- Invariant of the receipt screen with an empty trimmed route parameter: it
stays in its initial loading state with no requests, no error, no data, and
nothing in flight. -/
def screenEmptyInv (s : ScreenState) : Prop :=
  s.token_id = "" ∧ s.loading = true ∧ s.err = none ∧ s.data = none ∧
  s.requests = [] ∧ s.inFlight = false

theorem screenEmptyInv_step (base : String) (e : ScreenEvent) (s : ScreenState)
    (h : screenEmptyInv s) : screenEmptyInv (screenStep base e s) := by
  obtain ⟨h1, h2, h3, h4, h5, h6⟩ := h
  cases e with
  | effect => simp [screenStep, h1, screenEmptyInv, h2, h3, h4, h5, h6]
  | ok payload => simp [screenStep, h6, screenEmptyInv, h1, h2, h3, h4, h5]
  | fail emsg => simp [screenStep, h6, screenEmptyInv, h1, h2, h3, h4, h5]
  | cancel => simp [screenStep, screenEmptyInv, h1, h2, h3, h4, h5, h6]

theorem screenEmptyInv_foldl (base : String) : ∀ (es : List ScreenEvent) (s : ScreenState),
    screenEmptyInv s → screenEmptyInv (es.foldl (fun s e => screenStep base e s) s)
  | [], _, h => h
  | e :: es, s, h => screenEmptyInv_foldl base es _ (screenEmptyInv_step base e s h)

/-- C9: when the route parameter is absent or trims to the empty string, the
receipt screen never issues a fetch and never leaves the loading state: after
any sequence of lifecycle events it is still loading, request-free, error-free
and data-free, rendering the loading view. -/
theorem empty_param_never_fetches :
    ∀ (base : String) (tokenIdParam : Option String) (es : List ScreenEvent),
      jsTrim (tokenIdParam.getD "") = "" →
      (screenRun base tokenIdParam es).loading = true ∧
      (screenRun base tokenIdParam es).requests = [] ∧
      (screenRun base tokenIdParam es).err = none ∧
      (screenRun base tokenIdParam es).data = none ∧
      renderScreen (screenRun base tokenIdParam es) = ScreenView.loadingView := by
  intro base p es h
  have hinit : screenEmptyInv (screenInit p) := by
    refine ⟨?_, rfl, rfl, rfl, rfl, rfl⟩
    simp [screenInit, h]
  obtain ⟨h1, h2, h3, h4, h5, h6⟩ := screenEmptyInv_foldl base es (screenInit p) hinit
  exact ⟨h2, h5, h3, h4, by simp [renderScreen, screenRun, h2]⟩

/-- Witness for `empty_param_never_fetches`: a whitespace-only route parameter
followed by effect, completion and cleanup events leaves the screen loading. -/
theorem empty_param_never_fetches_witness :
    (screenRun "https://fn.example.com" (some "   ") [.effect, .fail "boom", .cancel]).loading = true ∧
    (screenRun "https://fn.example.com" (some "   ") [.effect, .fail "boom", .cancel]).requests = [] ∧
    (screenRun "https://fn.example.com" (some "   ") [.effect, .fail "boom", .cancel]).err = none ∧
    (screenRun "https://fn.example.com" (some "   ") [.effect, .fail "boom", .cancel]).data = none ∧
    renderScreen (screenRun "https://fn.example.com" (some "   ") [.effect, .fail "boom", .cancel]) =
      ScreenView.loadingView :=
  empty_param_never_fetches "https://fn.example.com" (some "   ")
    [.effect, .fail "boom", .cancel] (by decide)

theorem bytesToLowerHex_length : ∀ bs : List Nat, (bytesToLowerHex bs).length = 2 * bs.length
  | [] => rfl
  | b :: bs => by
    simp [bytesToLowerHex, List.foldr] at bytesToLowerHex_length bs ⊢
    simp [show bytesToLowerHex bs = List.foldr
      (fun b acc => lowerHexChar (b / 16 % 16) :: lowerHexChar (b % 16) :: acc) [] bs from rfl,
      bytesToLowerHex_length bs]
    omega

theorem lowerHexChar_is_hex : ∀ n : Nat, n < 16 → isLowerHexChar (lowerHexChar n) = true := by
  decide

theorem bytesToLowerHex_all_hex :
    ∀ bs : List Nat, (bytesToLowerHex bs).all isLowerHexChar = true
  | [] => rfl
  | b :: bs => by
    simp only [bytesToLowerHex, List.foldr, List.all_cons, Bool.and_eq_true]
    refine ⟨lowerHexChar_is_hex _ (Nat.mod_lt _ (by omega)),
            lowerHexChar_is_hex _ (Nat.mod_lt _ (by omega)), ?_⟩
    exact bytesToLowerHex_all_hex bs

theorem sha256Bytes_length (msg : List Nat) : (sha256Bytes msg).length = 32 := by
  simp [sha256Bytes, wordBytes]

theorem base64urlEncode_length :
    ∀ bs : List Nat, (base64urlEncode bs).length = (4 * bs.length + 2) / 3
  | [] => rfl
  | [_] => by simp [base64urlEncode]
  | [_, _] => by simp [base64urlEncode]
  | b0 :: b1 :: b2 :: rest => by
    simp only [base64urlEncode, List.length_cons, base64urlEncode_length rest]
    omega

/-- C10 counterexample: `TERMINAL_KEY_PEPPER` set to the empty string is a set
environment variable, yet the script still exits with the error instead of
generating a key, because the source checks `!PEPPER` and the empty string is
falsy in JavaScript. -/
theorem provision_empty_pepper_errors :
    provisionScript (some "") (List.replicate 32 (0 : Fin 256)) =
      .error "Set TERMINAL_KEY_PEPPER in your environment first." ∧
    (provisionScript (some "") (List.replicate 32 (0 : Fin 256))).isOk = false := by
  constructor <;> rfl

/-- C10 (amended): the script exits with the error, producing no key, when
TERMINAL_KEY_PEPPER is unset or empty; for a non-empty pepper it outputs the
base64url encoding of the random bytes as the raw key and an api_key_hash
equal to sha256Hex of pepper ++ ":" ++ rawKey; any sha256Hex output is a
64-character lowercase-hex string; 32 random bytes yield a 43-character
base64url key. -/
theorem provisionScript_spec :
    (∀ bytes : List (Fin 256), provisionScript none bytes =
      .error "Set TERMINAL_KEY_PEPPER in your environment first.") ∧
    (∀ bytes : List (Fin 256), provisionScript (some "") bytes =
      .error "Set TERMINAL_KEY_PEPPER in your environment first.") ∧
    (∀ (p : String) (bytes : List (Fin 256)), p ≠ "" →
      provisionScript (some p) bytes =
        .ok { rawKey := randomKey bytes,
              apiKeyHash := sha256Hex (p ++ ":" ++ randomKey bytes) }) ∧
    (∀ s : String, (sha256Hex s).length = 64 ∧ isLowerHexString (sha256Hex s) = true) ∧
    (∀ bytes : List (Fin 256), bytes.length = 32 → (randomKey bytes).length = 43) := by
  refine ⟨fun _ => rfl, fun _ => rfl, ?_, ?_, ?_⟩
  · intro p bytes hp
    simp [provisionScript, hp]
  · intro s
    constructor
    · show (bytesToLowerHex (sha256Bytes (stringUtf8Bytes s))).length = 64
      rw [bytesToLowerHex_length, sha256Bytes_length]
    · show (bytesToLowerHex (sha256Bytes (stringUtf8Bytes s))).all isLowerHexChar = true
      exact bytesToLowerHex_all_hex _
  · intro bytes h
    show (base64urlEncode (bytes.map Fin.val)).length = 43
    rw [base64urlEncode_length, List.length_map, h]

/-- Witness for `provisionScript_spec`: a concrete non-empty pepper and 32
concrete random bytes produce the key and the salted hash. -/
theorem provisionScript_spec_witness :
    provisionScript (some "pepper") (List.replicate 32 (0 : Fin 256)) =
      .ok { rawKey := randomKey (List.replicate 32 (0 : Fin 256)),
            apiKeyHash :=
              sha256Hex ("pepper" ++ ":" ++ randomKey (List.replicate 32 (0 : Fin 256))) } ∧
    (randomKey (List.replicate 32 (0 : Fin 256))).length = 43 :=
  ⟨provisionScript_spec.2.2.1 "pepper" _ (by decide),
   provisionScript_spec.2.2.2.2 _ (by decide)⟩

theorem dropWhile_cons_true {α : Type} {p : α → Bool} {x : α} {xs : List α} (h : p x = true) :
    (x :: xs).dropWhile p = xs.dropWhile p := by
  rw [List.dropWhile_cons, h]
  simp

theorem dropWhile_cons_false {α : Type} {p : α → Bool} {x : α} {xs : List α} (h : p x = false) :
    (x :: xs).dropWhile p = x :: xs := by
  rw [List.dropWhile_cons, h]
  simp

theorem map_id_of_mem {α : Type} {f : α → α} :
    ∀ xs : List α, (∀ x ∈ xs, f x = x) → xs.map f = xs
  | [], _ => rfl
  | x :: xs, h => by
    rw [List.map_cons, h x (List.mem_cons_self x xs)]
    exact congrArg (x :: ·) (map_id_of_mem xs fun y hy => h y (List.mem_cons_of_mem x hy))

theorem splitOnSlash_no_slash :
    ∀ cs : List Char, (∀ c ∈ cs, (c.toNat == 47) = false) → splitOnSlash cs = [cs]
  | [], _ => rfl
  | c :: cs, h => by
    have hc := h c (List.mem_cons_self c cs)
    simp only [splitOnSlash, hc, Bool.false_eq_true, if_false,
      splitOnSlash_no_slash cs (fun d hd => h d (List.mem_cons_of_mem c hd))]

/-- Code-point characterization of the safe host alphabet. -/
theorem safeHostChar_code {c : Char} (h : isSafeHostChar c = true) :
    c.toNat = 45 ∨ c.toNat = 46 ∨ c.toNat = 95 ∨ c.toNat = 126 ∨
    (48 ≤ c.toNat ∧ c.toNat ≤ 57) ∨ (65 ≤ c.toNat ∧ c.toNat ≤ 90) ∨
    (97 ≤ c.toNat ∧ c.toNat ≤ 122) := by
  simp only [isSafeHostChar, isAsciiAlpha, isAsciiDigit, Bool.or_eq_true, Bool.and_eq_true,
    decide_eq_true_eq, beq_iff_eq] at h
  omega

/-- No printable ASCII character in the 33..126 range is JavaScript whitespace. -/
theorem isJsWhitespace_eq_false {c : Char} (h : 33 ≤ c.toNat ∧ c.toNat ≤ 126) :
    isJsWhitespace c = false := by
  cases hb : isJsWhitespace c with
  | false => rfl
  | true =>
    exfalso
    simp only [isJsWhitespace, Bool.or_eq_true, Bool.and_eq_true, beq_iff_eq,
      decide_eq_true_eq] at hb
    omega

/-- C6 counterexample: the domain `"a b"` normalizes to itself, is non-empty
and contains none of `/` `?` `#`, and the token is a strict UUID, yet the
round trip fails: the space is a forbidden host code point, so the built URL
`https://a b/r/...` does not parse and extractTokenId returns `none` instead of
the trimmed token. -/
theorem roundtrip_fails_on_space_domain :
    uuidMatch (jsTrim "3fa85f64-5717-4562-b3fc-2c963f66afa6") = true ∧
    normalizeReceiptDomain "a b" = "a b" ∧
    ("a b" : String) ≠ "" ∧
    ("a b" : String).data.all
      (fun c => c.toNat != 47 && c.toNat != 63 && c.toNat != 35) = true ∧
    extractTokenId (buildReceiptUrl "a b" "3fa85f64-5717-4562-b3fc-2c963f66afa6") = none ∧
    extractTokenId (buildReceiptUrl "a b" "3fa85f64-5717-4562-b3fc-2c963f66afa6") ≠
      some (jsTrim "3fa85f64-5717-4562-b3fc-2c963f66afa6") := by
  exact ⟨by decide, by decide, by decide, by decide, by decide, by decide⟩

/-- C6 (amended): for every token whose trim matches the strict UUID pattern
and every domain whose normalization (scheme marker and trailing slashes
stripped) is non-empty and consists solely of safe host characters (ASCII
letters, digits, `-`, `.`, `_`, `~` — in particular no `/`, `?`, `#`, no
whitespace, and no other URL-special character), extractTokenId applied to
buildReceiptUrl(domain, token) returns exactly the trimmed token. -/
theorem receipt_url_roundtrip :
    ∀ (domain token : String),
      uuidMatch (jsTrim token) = true →
      normalizeReceiptDomain domain ≠ "" →
      (normalizeReceiptDomain domain).data.all isSafeHostChar = true →
      extractTokenId (buildReceiptUrl domain token) = some (jsTrim token) := by
  intro domain token hT hDne hDall
  set T := jsTrim token with hTdef
  set D := normalizeReceiptDomain domain with hDdef
  have hURL : buildReceiptUrl domain token = "https://" ++ D ++ "/r/" ++ T := by
    show "https://" ++ D ++ "/r/" ++ encodeURIComponent T = "https://" ++ D ++ "/r/" ++ T
    rw [encodeURIComponent_of_uuid hT]
  rw [hURL]
  have hTc := uuid_char_code hT
  have hT36 := uuid_length36 hT
  have hDc : ∀ c ∈ D.data, isSafeHostChar c = true := fun c hc => List.all_eq_true.mp hDall c hc
  obtain ⟨d, D2, hDcons⟩ : ∃ d D2, D.data = d :: D2 := by
    rcases hE : D.data with _ | ⟨d, D2⟩
    · exact absurd (show D = "" by rw [← string_mk_data D, hE]) hDne
    · exact ⟨d, D2, rfl⟩
  obtain ⟨t0, T2, hTcons⟩ : ∃ t0 T2, T.data = t0 :: T2 := by
    rcases hE : T.data with _ | ⟨t0, T2⟩
    · rw [hE] at hT36
      simp at hT36
    · exact ⟨t0, T2, rfl⟩
  have hdata : ("https://" ++ D ++ "/r/" ++ T).data
      = 'h' :: 't' :: 't' :: 'p' :: 's' :: ':' :: '/' :: '/' :: (D.data ++ '/' :: 'r' :: '/' :: T.data) := by
    rw [String.data_append, String.data_append, String.data_append]
    show ['h','t','t','p','s',':','/','/'] ++ D.data ++ ['/','r','/'] ++ T.data = _
    simp [List.append_assoc]
  have hrange : ∀ c ∈ ("https://" ++ D ++ "/r/" ++ T).data, 33 ≤ c.toNat ∧ c.toNat ≤ 126 := by
    rw [hdata]
    intro c hc
    simp only [List.mem_cons, List.mem_append] at hc
    rcases hc with h|h|h|h|h|h|h|h|h|h|h|h|h <;>
      first
      | (subst h; decide)
      | (have hcode := safeHostChar_code (hDc c h); omega)
      | (have hcode := hTc c h; omega)
  have hFilter : (("https://" ++ D ++ "/r/" ++ T).data.filter
      (fun c => c.toNat != 9 && c.toNat != 10 && c.toNat != 13))
      = ("https://" ++ D ++ "/r/" ++ T).data := by
    apply filter_of_all
    intro c hc
    have := hrange c hc
    simp only [Bool.and_eq_true, bne_iff_ne, ne_eq]
    omega
  have hPre : urlPreprocess ("https://" ++ D ++ "/r/" ++ T).data
      = ("https://" ++ D ++ "/r/" ++ T).data := by
    unfold urlPreprocess
    rw [hFilter]
    apply dropEnds_of_all_false
    intro c hc
    have := hrange c hc
    simp only [decide_eq_false_iff_not, not_le]
    omega
  have hTrim : jsTrim ("https://" ++ D ++ "/r/" ++ T) = "https://" ++ D ++ "/r/" ++ T :=
    jsTrim_of_no_ws fun c hc => isJsWhitespace_eq_false (hrange c hc)
  have hUuidF : uuidMatch ("https://" ++ D ++ "/r/" ++ T) = false := by
    cases hb : uuidMatch ("https://" ++ D ++ "/r/" ++ T) with
    | false => rfl
    | true =>
      exfalso
      have h36 := uuid_length36 hb
      rw [hdata, hDcons] at h36
      simp only [List.length_cons, List.length_append, hT36] at h36
      omega
  have hScheme : schemeSplit ('h' :: 't' :: 't' :: 'p' :: 's' :: ':' :: '/' :: '/' :: (D.data ++ '/' :: 'r' :: '/' :: T.data))
      = some (['h','t','t','p','s'], '/' :: '/' :: (D.data ++ '/' :: 'r' :: '/' :: T.data)) := rfl
  have hdSlash : (d.toNat == 47 || d.toNat == 92) = false := by
    have := safeHostChar_code (hDc d (by rw [hDcons]; exact List.mem_cons_self d D2))
    cases hb : (d.toNat == 47 || d.toNat == 92) with
    | false => rfl
    | true =>
      exfalso
      simp only [Bool.or_eq_true, beq_iff_eq] at hb
      omega
  have hSlash : (('/' :: '/' :: (D.data ++ '/' :: 'r' :: '/' :: T.data)).dropWhile
        (fun c => c.toNat == 47 || c.toNat == 92)) = D.data ++ '/' :: 'r' :: '/' :: T.data := by
    rw [dropWhile_cons_true (by decide), dropWhile_cons_true (by decide), hDcons,
      List.cons_append]
    exact @dropWhile_cons_false _ _ _ _ hdSlash
  have hDnoAuth : ∀ x ∈ D.data, (fun c => !(isAuthorityEnd c)) x = true := by
    intro x hx
    have := safeHostChar_code (hDc x hx)
    cases hb : isAuthorityEnd x with
    | false => simp [hb]
    | true =>
      exfalso
      simp only [isAuthorityEnd, Bool.or_eq_true, beq_iff_eq] at hb
      omega
  have hAuthT : ((D.data ++ '/' :: 'r' :: '/' :: T.data).takeWhile (fun c => !(isAuthorityEnd c)))
      = D.data :=
    takeWhile_append_of_all D.data hDnoAuth (by decide)
  have hAuthD : ((D.data ++ '/' :: 'r' :: '/' :: T.data).dropWhile (fun c => !(isAuthorityEnd c)))
      = '/' :: 'r' :: '/' :: T.data :=
    dropWhile_append_of_all D.data hDnoAuth (by decide)
  have hHost : parseHostPort D.data = some (D.data.map asciiLowerChar, none) := by
    have h64 : D.data.reverse.takeWhile (fun c => c.toNat != 64) = D.data.reverse := by
      apply takeWhile_of_all
      intro c hc
      have := safeHostChar_code (hDc c (List.mem_reverse.mp hc))
      simp only [bne_iff_ne, ne_eq]
      omega
    have h58t : D.data.takeWhile (fun c => c.toNat != 58) = D.data := by
      apply takeWhile_of_all
      intro c hc
      have := safeHostChar_code (hDc c hc)
      simp only [bne_iff_ne, ne_eq]
      omega
    have h58d : D.data.dropWhile (fun c => c.toNat != 58) = [] := by
      apply dropWhile_nil_of_all
      intro c hc
      have := safeHostChar_code (hDc c hc)
      simp only [bne_iff_ne, ne_eq]
      omega
    have hAny : D.data.any isForbiddenHostChar = false := by
      cases hb : D.data.any isForbiddenHostChar with
      | false => rfl
      | true =>
        exfalso
        obtain ⟨x, hx, hpx⟩ := List.any_eq_true.mp hb
        have := safeHostChar_code (hDc x hx)
        simp only [isForbiddenHostChar, Bool.or_eq_true, beq_iff_eq, decide_eq_true_eq] at hpx
        omega
    have hEmp : D.data.isEmpty = false := by
      rw [hDcons]
      rfl
    simp only [parseHostPort, h64, List.reverse_reverse, h58t, h58d, hAny, hEmp,
      Bool.false_eq_true, if_false]
  have hTnoPath : ∀ x ∈ ('/' :: 'r' :: '/' :: T.data), (fun c => !(isPathEnd c)) x = true := by
    intro x hx
    simp only [List.mem_cons] at hx
    rcases hx with h|h|h|h
    · subst h; decide
    · subst h; decide
    · subst h; decide
    · have := hTc x h
      cases hb : isPathEnd x with
      | false => simp [hb]
      | true =>
        exfalso
        simp only [isPathEnd, Bool.or_eq_true, beq_iff_eq] at hb
        omega
  have hPathMap : ∀ x ∈ ('/' :: 'r' :: '/' :: T.data),
      (fun c => if c.toNat == 92 then Char.ofNat 47 else c) x = x := by
    intro x hx
    simp only [List.mem_cons] at hx
    have hne : x.toNat ≠ 92 := by
      rcases hx with h|h|h|h
      · subst h; decide
      · subst h; decide
      · subst h; decide
      · have := hTc x h
        omega
    simp [hne]
  have hPath : parsePathname ('/' :: 'r' :: '/' :: T.data) = '/' :: 'r' :: '/' :: T.data := by
    show (if isPathEnd '/' then [Char.ofNat 47]
          else ((('/' :: 'r' :: '/' :: T.data).takeWhile (fun c => !(isPathEnd c))).map
            (fun c => if c.toNat == 92 then Char.ofNat 47 else c))) = '/' :: 'r' :: '/' :: T.data
    rw [if_neg (by decide)]
    rw [takeWhile_of_all _ hTnoPath, map_id_of_mem _ hPathMap]
  have hmapScheme : String.mk (['h','t','t','p','s'].map asciiLowerChar) = "https" := by decide
  have hcontains : specialSchemes.contains "https" = true := by decide
  have hParse : jsUrlParse ("https://" ++ D ++ "/r/" ++ T)
      = some { scheme := "https", host := String.mk (D.data.map asciiLowerChar), port := none,
               pathname := String.mk ('/' :: 'r' :: '/' :: T.data) } := by
    unfold jsUrlParse
    rw [hPre, hdata]
    simp only [hScheme, hmapScheme, hcontains, if_true, hSlash, hAuthT, hAuthD, hHost, hPath]
  have hTn : splitOnSlash T.data = [T.data] := by
    apply splitOnSlash_no_slash
    intro c hc
    have := hTc c hc
    cases hb : (c.toNat == 47) with
    | false => rfl
    | true =>
      exfalso
      simp only [beq_iff_eq] at hb
      omega
  have hSplit : splitOnSlash ('/' :: 'r' :: '/' :: T.data) = [[], ['r'], T.data] := by
    simp [splitOnSlash, hTn]
  have hSeg : lastNonEmptySegment (String.mk ('/' :: 'r' :: '/' :: T.data)) = T := by
    show ((((splitOnSlash ('/' :: 'r' :: '/' :: T.data)).filter
        (fun g => !g.isEmpty)).map String.mk).getLastD "") = T
    rw [hSplit, hTcons]
    simp only [List.filter_cons, List.isEmpty_nil, List.isEmpty_cons, Bool.not_true,
      Bool.not_false, Bool.false_eq_true, Bool.true_eq_false, eq_self_iff_true, if_true,
      if_false, List.filter_nil, List.map_cons, List.map_nil, List.getLastD_cons,
      List.getLastD_nil]
    rw [← hTcons, string_mk_data]
  simp only [extractTokenId]
  rw [hTrim, hUuidF, hParse]
  simp only [Bool.false_eq_true, if_false]
  rw [hSeg, hT]
  simp

/-- Witness for `receipt_url_roundtrip` on the spec's own example domain and a
concrete UUID token. -/
theorem receipt_url_roundtrip_witness :
    extractTokenId (buildReceiptUrl "https://r.example.com/"
        " 3fa85f64-5717-4562-b3fc-2c963f66afa6 ") =
      some (jsTrim " 3fa85f64-5717-4562-b3fc-2c963f66afa6 ") :=
  receipt_url_roundtrip "https://r.example.com/" " 3fa85f64-5717-4562-b3fc-2c963f66afa6 "
    (by decide) (by decide) (by decide)
